import Mathlib

/-!
Verification of the Profile Graph & Multi-Metric Matching Engine.

This file shallowly embeds the core of the repository:

* `app/services/similarity_engine.py`  — the six per-pair metrics, the
  weighted composite score and local ranking (`SimilarityEngine`);
* `app/services/network_matching_engine.py` — the in-memory profile and
  connection caches, the load step, mutual-connection lookup, path
  classification, the `find_connections` pipeline and network statistics;
* `app/services/cohere_service.py` — the thin wrappers around the three
  external collaborators (query parser, embedder, reranker), which are
  modelled as oracle functions supplied as parameters.

Python floats are modelled as real numbers (`ℝ`) inside the similarity
engine, where cosine similarity is genuinely irrational, and as rationals
(`ℚ`) in the pipeline and statistics, where only finite decimal values
flow.  Python dicts are modelled as association lists in insertion order.
A Python string that may be absent (`profile.get(k, "")` together with
truthiness tests) is modelled as a `String` where `""` stands for
"absent or empty", since the source nowhere distinguishes the two.
-/

/-- An education record, modelling the `education` dict of a profile.
`""` models an absent `university`/`degree`/`field` key, matching the
source's `edu.get("university")` truthiness tests. -/
structure EduRec where
  university : String
  degree : String
  field : String
deriving DecidableEq

/-- One entry of `work_history`; only the `company` key is read by the
engine (`work.get("company")`, `""` models absence). -/
structure WorkEntry where
  company : String
deriving DecidableEq

/-- A profile record, modelling the profile dicts stored in
`profiles_cache`.  `email_interactions` maps a peer id to the
`relationship_strength` float the source reads via
`interactions[peer].get("relationship_strength", 0.0)`; `education` is
`none` when the `education` dict is absent or empty (both are falsy). -/
structure Profile where
  id : String
  name : String
  job_title : String
  company : String
  industry : String
  bio : String
  skills : List String
  education : Option EduRec
  work_history : List WorkEntry
  linkedin_connections : List String
  email_interactions : List (String × ℝ)

/-- Association-list lookup modelling a Python dict read (first binding
wins; dict keys are unique so this agrees with the source). -/
def alookup {α : Type} : List (String × α) → String → Option α
  | [], _ => none
  | (k, v) :: rest, key => if k = key then some v else alookup rest key

/-- `listIsPref n h` : the char list `n` is an initial segment of `h`. -/
def listIsPref : List Char → List Char → Bool
  | [], _ => true
  | _ :: _, [] => false
  | a :: as, b :: bs => a = b && listIsPref as bs

/-- `listHasSub h n` : the char list `n` occurs contiguously in `h`. -/
def listHasSub : List Char → List Char → Bool
  | [], n => n.isEmpty
  | a :: as, n => listIsPref n (a :: as) || listHasSub as n

/-- Python's substring test `needle in hay` (true for the empty needle). -/
def strContains (hay needle : String) : Bool :=
  listHasSub hay.toList needle.toList

/-- Python's `str.lower()` (character-wise lowercasing). -/
def strLower (s : String) : String :=
  ⟨s.toList.map Char.toLower⟩

noncomputable section

/-! ### Similarity engine (`similarity_engine.py`) -/

/-- Dot product of two embedding vectors, modelled over the common index
range; positions past a vector's length contribute `0`, so for the
equal-length vectors numpy accepts this is the numpy dot product. -/
def dotList (v w : List ℝ) : ℝ :=
  ∑ i ∈ Finset.range (max v.length w.length), v.getD i 0 * w.getD i 0

/-- Cosine similarity of two embeddings, as computed by sklearn's
`cosine_similarity`; a zero-norm vector yields `0` (division by zero is
`0` in Lean, matching sklearn's zero-norm handling). -/
def cosineSim (v w : List ℝ) : ℝ :=
  dotList v w / (Real.sqrt (dotList v v) * Real.sqrt (dotList w w))

/-- `SimilarityEngine.calculate_semantic_similarity`: cosine similarity
floored at `0`; `0` if either embedding is `None`. -/
def calculate_semantic_similarity : Option (List ℝ) → Option (List ℝ) → ℝ
  | some v, some w => max 0 (cosineSim v w)
  | _, _ => 0

/-- `SimilarityEngine.calculate_relationship_strength`: starts at `0`,
then takes the max with the strength recorded from profile1 to profile2
and with the strength recorded from profile2 to profile1. -/
def calculate_relationship_strength (p1 p2 : Profile) : ℝ :=
  let strength : ℝ := 0
  let strength := match alookup p1.email_interactions p2.id with
    | some s => max strength s
    | none => strength
  let strength := match alookup p2.email_interactions p1.id with
    | some s => max strength s
    | none => strength
  strength

/-- `SimilarityEngine.calculate_mutual_connections`: Jaccard index of the
two `linkedin_connections` sets; `0` if either set is empty. -/
def calculate_mutual_connections (p1 p2 : Profile) : ℝ :=
  let c1 := p1.linkedin_connections.toFinset
  let c2 := p2.linkedin_connections.toFinset
  if c1 = ∅ ∨ c2 = ∅ then 0
  else
    let mutualCount := (c1 ∩ c2).card
    let total := (c1 ∪ c2).card
    if total = 0 then 0 else (mutualCount : ℝ) / (total : ℝ)

/-- The set of companies of a profile: the current company plus every
work-history company, lowercased, skipping falsy (empty) values. -/
def profileCompanies (p : Profile) : Finset String :=
  ((if p.company.isEmpty then [] else [strLower p.company]) ++
    p.work_history.filterMap
      (fun w => if w.company.isEmpty then none else some (strLower w.company))).toFinset

/-- `SimilarityEngine.calculate_company_overlap`: Jaccard index over the
companies of the two profiles; `0` if either side has none. -/
def calculate_company_overlap (p1 p2 : Profile) : ℝ :=
  let cs1 := profileCompanies p1
  let cs2 := profileCompanies p2
  if cs1 = ∅ ∨ cs2 = ∅ then 0
  else
    let overlap := (cs1 ∩ cs2).card
    let total := (cs1 ∪ cs2).card
    if 0 < total then (overlap : ℝ) / (total : ℝ) else 0

/-- The source's "similar level" test on lowercased degrees:
`(bs|ba, bs|ba)`, `(ms, ms|phd)` or `(phd, ms|phd)`. -/
def degreeAdjacent (d1 d2 : String) : Bool :=
  ((d1 = "bs" || d1 = "ba") && (d2 = "bs" || d2 = "ba")) ||
  (d1 = "ms" && (d2 = "ms" || d2 = "phd")) ||
  (d1 = "phd" && (d2 = "ms" || d2 = "phd"))

/-- `SimilarityEngine.calculate_education_similarity`: `0` if either
education record is absent; otherwise `+0.7` for a case-insensitive
university match (both present) and `+0.3` for an exact lowercased degree
match, or `+0.15` for an adjacent degree pair. -/
def calculate_education_similarity (p1 p2 : Profile) : ℝ :=
  match p1.education, p2.education with
  | some e1, some e2 =>
    (if ¬e1.university.isEmpty ∧ ¬e2.university.isEmpty ∧
        strLower e1.university = strLower e2.university then (0.7 : ℝ) else 0) +
    (if ¬e1.degree.isEmpty ∧ ¬e2.degree.isEmpty then
        (if strLower e1.degree = strLower e2.degree then (0.3 : ℝ)
         else if degreeAdjacent (strLower e1.degree) (strLower e2.degree) then 0.15 else 0)
     else 0)
  | _, _ => 0

end

/-- A parsed networking query, as produced by the query-parsing
collaborator and consumed by `calculate_query_relevance`.
`experience_level = ""` models an absent / falsy value. -/
structure ParsedQuery where
  job_titles : List String
  companies : List String
  skills : List String
  industries : List String
  education : List String
  experience_level : String
deriving DecidableEq

noncomputable section

/-! ### Query relevance (`calculate_query_relevance`) -/

/-- Job-title criterion: some query title matches the lowercased profile
title as a substring in either direction. -/
def jobTitleScore (p : Profile) (q : ParsedQuery) : ℝ :=
  if q.job_titles.any (fun t =>
      strContains (strLower p.job_title) (strLower t) ||
      strContains (strLower t) (strLower p.job_title)) then 1 else 0

/-- Company criterion: some lowercased query company is a member of the
profile's company set. -/
def companyScore (p : Profile) (q : ParsedQuery) : ℝ :=
  if q.companies.any (fun c => strLower c ∈ profileCompanies p) then 1 else 0

/-- Skills criterion: fraction of query skills present (lowercased) in
the profile's lowercased skill list. -/
def skillsScore (p : Profile) (q : ParsedQuery) : ℝ :=
  ((q.skills.filter (fun s => strLower s ∈ p.skills.map strLower)).length : ℝ) /
    (q.skills.length : ℝ)

/-- Industry criterion: some lowercased query industry is a substring of
the lowercased profile industry. -/
def industryScore (p : Profile) (q : ParsedQuery) : ℝ :=
  if q.industries.any (fun ind => strContains (strLower p.industry) (strLower ind)) then 1 else 0

/-- Education criterion: some lowercased query education requirement is a
substring of the profile's lowercased university or degree (both `""`
when the education record is absent). -/
def educationScore (p : Profile) (q : ParsedQuery) : ℝ :=
  let uni := strLower (match p.education with | some e => e.university | none => "")
  let deg := strLower (match p.education with | some e => e.degree | none => "")
  if q.education.any (fun r => strContains uni (strLower r) || strContains deg (strLower r))
  then 1 else 0

/-- Experience-level criterion: the source's title-keyword heuristic for
"senior" / "junior" / "executive" (an if/elif chain). -/
def experienceScore (p : Profile) (q : ParsedQuery) : ℝ :=
  let title := strLower p.job_title
  let lvl := strLower q.experience_level
  if lvl = "senior" ∧ (strContains title "senior" || strContains title "principal" ||
      strContains title "staff") then 1
  else if lvl = "junior" ∧ (strContains title "junior" ||
      (¬strContains title "senior" ∧ ¬strContains title "principal")) then 1
  else if lvl = "executive" ∧ (["vp", "director", "head", "ceo", "cto", "cpo"].any
      (fun t => strContains title t)) then 1
  else 0

/-- `SimilarityEngine.calculate_query_relevance`: walks the criteria in
source order, incrementing `total_criteria` for each populated field
(experience level only when present and not `"any"`, the embedding
criterion only when both embeddings are present) and accumulating the
per-criterion score, then divides by the criteria count (`0` when no
criterion was counted). -/
def calculate_query_relevance (p : Profile) (q : ParsedQuery)
    (query_embedding profile_embedding : Option (List ℝ)) : ℝ :=
  let acc : ℝ × ℕ := (0, 0)
  let acc := if ¬q.job_titles.isEmpty then (acc.1 + jobTitleScore p q, acc.2 + 1) else acc
  let acc := if ¬q.companies.isEmpty then (acc.1 + companyScore p q, acc.2 + 1) else acc
  let acc := if ¬q.skills.isEmpty then (acc.1 + skillsScore p q, acc.2 + 1) else acc
  let acc := if ¬q.industries.isEmpty then (acc.1 + industryScore p q, acc.2 + 1) else acc
  let acc := if ¬q.education.isEmpty then (acc.1 + educationScore p q, acc.2 + 1) else acc
  let acc := if ¬q.experience_level.isEmpty ∧ q.experience_level ≠ "any" then
      (acc.1 + experienceScore p q, acc.2 + 1) else acc
  let acc := match query_embedding, profile_embedding with
    | some qe, some pe =>
      (acc.1 + calculate_semantic_similarity (some qe) (some pe), acc.2 + 1)
    | _, _ => acc
  if 0 < acc.2 then acc.1 / (acc.2 : ℝ) else 0

/-- Modelled from the spec's words for the query-relevance claim: the
list of per-field match scores of exactly the populated query fields, in
source order ("any" experience excluded, the embedding criterion only
when both embeddings are present). -/
def fieldScores (p : Profile) (q : ParsedQuery)
    (query_embedding profile_embedding : Option (List ℝ)) : List ℝ :=
  (if ¬q.job_titles.isEmpty then [jobTitleScore p q] else []) ++
  (if ¬q.companies.isEmpty then [companyScore p q] else []) ++
  (if ¬q.skills.isEmpty then [skillsScore p q] else []) ++
  (if ¬q.industries.isEmpty then [industryScore p q] else []) ++
  (if ¬q.education.isEmpty then [educationScore p q] else []) ++
  (if ¬q.experience_level.isEmpty ∧ q.experience_level ≠ "any" then
      [experienceScore p q] else []) ++
  (match query_embedding, profile_embedding with
    | some qe, some pe => [calculate_semantic_similarity (some qe) (some pe)]
    | _, _ => [])

/-- Modelled from the spec's words: query relevance is the average of the
per-field scores of the populated fields, and `0` when no field is
populated. -/
def queryRelevanceSpec (p : Profile) (q : ParsedQuery)
    (query_embedding profile_embedding : Option (List ℝ)) : ℝ :=
  let l := fieldScores p q query_embedding profile_embedding
  if l.isEmpty then 0 else l.sum / (l.length : ℝ)

/-! ### Composite score and local ranking -/

/-- The weights of `SimilarityEngine.__init__`. -/
def weights_semantic_similarity : ℝ := 0.25

/-- See `weights_semantic_similarity`. -/
def weights_relationship_strength : ℝ := 0.20

/-- See `weights_semantic_similarity`. -/
def weights_mutual_connections : ℝ := 0.15

/-- See `weights_semantic_similarity`. -/
def weights_company_overlap : ℝ := 0.15

/-- See `weights_semantic_similarity`. -/
def weights_education_similarity : ℝ := 0.10

/-- See `weights_semantic_similarity`. -/
def weights_query_relevance : ℝ := 0.15

/-- The dict returned by `SimilarityEngine.calculate_composite_score`. -/
structure CompositeScores where
  composite_score : ℝ
  semantic_similarity : ℝ
  relationship_strength : ℝ
  mutual_connections : ℝ
  company_overlap : ℝ
  education_similarity : ℝ
  query_relevance : ℝ

/-- `SimilarityEngine.calculate_composite_score`: the six metrics and
their weighted sum.  Query relevance is only computed when a parsed query
is supplied (a truthy, i.e. nonempty, dict — `none` models `None` or
`{}`) and a query embedding is present. -/
def calculate_composite_score (p1 p2 : Profile)
    (profile1_embedding profile2_embedding : Option (List ℝ))
    (parsed_query : Option ParsedQuery) (query_embedding : Option (List ℝ)) :
    CompositeScores :=
  let semantic_sim := calculate_semantic_similarity profile1_embedding profile2_embedding
  let relationship_strength := calculate_relationship_strength p1 p2
  let mutual_connections := calculate_mutual_connections p1 p2
  let company_overlap := calculate_company_overlap p1 p2
  let education_sim := calculate_education_similarity p1 p2
  let query_relevance := match parsed_query, query_embedding with
    | some pq, some qe => calculate_query_relevance p2 pq (some qe) profile2_embedding
    | _, _ => 0
  let composite_score :=
    semantic_sim * weights_semantic_similarity +
    relationship_strength * weights_relationship_strength +
    mutual_connections * weights_mutual_connections +
    company_overlap * weights_company_overlap +
    education_sim * weights_education_similarity +
    query_relevance * weights_query_relevance
  ⟨composite_score, semantic_sim, relationship_strength, mutual_connections,
    company_overlap, education_sim, query_relevance⟩

end

/-! ### Profile store and connection cache (`network_matching_engine.py`) -/

/-- The in-memory state of `NetworkMatchingEngine`: `profiles_cache` and
`connections_cache`, both Python dicts modelled as association lists in
insertion order. -/
structure EngineState where
  profiles : List (String × Profile)
  connections : List (String × List String)

/-- Python dict assignment `d[k] = v`: replaces the binding in place, or
appends a new binding. -/
def cacheSet {α : Type} : List (String × α) → String → α → List (String × α)
  | [], k, v => [(k, v)]
  | (k', v') :: rest, k, v =>
    if k' = k then (k, v) :: rest else (k', v') :: cacheSet rest k v

/-- The back-edge step of the load loop: ensure `cid` has a cache entry
and append `pid` to it when missing. -/
def insertBackEdge (cache : List (String × List String)) (cid pid : String) :
    List (String × List String) :=
  let cur := match alookup cache cid with
    | some l => l
    | none => []
  if pid ∈ cur then cache else cacheSet cache cid (cur ++ [pid])

/-- One iteration of the load loop of
`NetworkMatchingEngine.initialize_with_synthetic_data` (lines 42-52): a
profile with a nonempty `linkedin_connections` list first *overwrites*
its own cache entry with that list, then inserts its back-edges.
(In Python the assigned list is the profile's own list object; appends to
an already-assigned entry therefore also mutate that profile's record.
The cache contents modelled here are unaffected by that aliasing.) -/
def processProfile (cache : List (String × List String)) (pp : String × Profile) :
    List (String × List String) :=
  let lc := pp.2.linkedin_connections
  if lc.isEmpty then cache
  else
    let cache1 := cacheSet cache pp.1 lc
    lc.foldl (fun c cid => insertBackEdge c cid pp.1) cache1

/-- The `connections_cache` produced by the load loop, iterating the
profile dict in insertion order. -/
def buildConnectionsCache (profiles : List (String × Profile)) :
    List (String × List String) :=
  profiles.foldl processProfile []

/-- The state after `initialize_with_synthetic_data` stores the generated
profiles (keyed by their `id`) and builds the connections cache. -/
def initializeStore (ps : List Profile) : EngineState :=
  let cache := ps.map (fun p => (p.id, p))
  ⟨cache, buildConnectionsCache cache⟩

/-- `self.connections_cache.get(id, [])`. -/
def cacheList (st : EngineState) (id : String) : List String :=
  (alookup st.connections id).getD []

/-- A mutual-connection summary as assembled by
`find_mutual_connections`. -/
structure MutualSummary where
  id : String
  name : String
  job_title : String
  company : String
deriving DecidableEq

/-- `NetworkMatchingEngine.find_mutual_connections`: intersects the two
cached connection lists (a Python set intersection, modelled here in
first-occurrence order), resolves each mutual id against
`profiles_cache` — silently skipping ids with no loaded profile — and
truncates to the first 5 summaries. -/
def find_mutual_connections (st : EngineState) (requester_id target_id : String) :
    List MutualSummary :=
  let requester_connections := cacheList st requester_id
  let target_connections := cacheList st target_id
  let mutual_ids := requester_connections.dedup.filter
    (fun i => i ∈ target_connections)
  (mutual_ids.filterMap (fun mid =>
    (alookup st.profiles mid).map (fun p => ⟨p.id, p.name, p.job_title, p.company⟩))).take 5

/-- `NetworkMatchingEngine._find_shortest_path`: `["direct"]` when
profile2's id is in profile1's own `linkedin_connections`; else
`["2-hop", name]` through the first mutual connection if any; else
`["no_direct_path"]`. -/
def find_shortest_path (st : EngineState) (profile1 profile2 : Profile) : List String :=
  if profile2.id ∈ profile1.linkedin_connections then ["direct"]
  else
    match find_mutual_connections st profile1.id profile2.id with
    | m :: _ => ["2-hop", m.name]
    | [] => ["no_direct_path"]

/-! ### Network statistics (`get_network_stats`) -/

/-- Round-half-to-even of a rational, modelling Python's `round`. -/
def roundHalfEven (x : ℚ) : ℤ :=
  let f := Int.floor x
  let r := x - f
  if r < 1 / 2 then f
  else if 1 / 2 < r then f + 1
  else if f % 2 = 0 then f else f + 1

/-- Python's `round(x, d)` on a rational value. -/
def pyround (d : ℕ) (x : ℚ) : ℚ :=
  (roundHalfEven (x * 10 ^ d) : ℚ) / 10 ^ d

/-- Python's true division, which raises `ZeroDivisionError` on a zero
divisor. -/
def pydiv (a b : ℚ) : Option ℚ :=
  if b = 0 then none else some (a / b)

/-- Increment the count of `k` in a frequency list, keeping first-seen
order (Python dict semantics of `d[k] = d.get(k, 0) + 1`). -/
def bumpCount : List (String × ℕ) → String → List (String × ℕ)
  | [], k => [(k, 1)]
  | (k', n) :: rest, k =>
    if k' = k then (k', n + 1) :: rest else (k', n) :: bumpCount rest k

/-- Frequency of the truthy values of `f` over the stored profiles, in
first-seen order. -/
def countField (st : EngineState) (f : Profile → String) : List (String × ℕ) :=
  st.profiles.foldl (fun acc pp =>
    if (f pp.2).isEmpty then acc else bumpCount acc (f pp.2)) []

/-- Stable insertion into a descending-sorted list: `x` goes before the
first element it is `ge` to (so equal elements keep original order). -/
def insertDescBy {α : Type} (ge : α → α → Bool) (x : α) : List α → List α
  | [] => [x]
  | y :: ys => if ge x y then x :: y :: ys else y :: insertDescBy ge x ys

/-- Stable descending sort (insertion sort), modelling Python's stable
`list.sort(key=..., reverse=True)`. -/
def sortDescBy {α : Type} (ge : α → α → Bool) : List α → List α
  | [] => []
  | x :: xs => insertDescBy ge x (sortDescBy ge xs)

/-- The dict returned by `get_network_stats` (the two timing-free
aggregate fields plus the three top-N frequency tables; `rerank_ready`
is a constant and omitted). -/
structure NetworkStats where
  total_profiles : ℕ
  total_connections : ℕ
  average_connections_per_person : ℚ
  top_companies : List (String × ℕ)
  top_industries : List (String × ℕ)
  top_job_titles : List (String × ℕ)
deriving DecidableEq

/-- `NetworkMatchingEngine.get_network_stats`: sums the connection-list
lengths, halves (floor) for the undirected edge count, and divides the
doubled edge count by the profile count — a Python true division that
raises `ZeroDivisionError` (modelled by `pydiv` / `none`) on an empty
store.  Top-N tables are stable descending sorts by count. -/
def get_network_stats (st : EngineState) : Option NetworkStats :=
  let total_profiles := st.profiles.length
  let total_connections :=
    (st.profiles.map (fun pp => pp.2.linkedin_connections.length)).sum / 2
  let companies := countField st (fun p => p.company)
  let industries := countField st (fun p => p.industry)
  let job_titles := countField st (fun p => p.job_title)
  let byCount : (String × ℕ) → (String × ℕ) → Bool := fun a b => decide (b.2 ≤ a.2)
  (pydiv ((total_connections : ℚ) * 2) (total_profiles : ℚ)).map (fun avg =>
    { total_profiles := total_profiles
      total_connections := total_connections
      average_connections_per_person := pyround 1 avg
      top_companies := (sortDescBy byCount companies).take 10
      top_industries := (sortDescBy byCount industries).take 5
      top_job_titles := (sortDescBy byCount job_titles).take 10 })

noncomputable section

/-! ### Local ranking (`SimilarityEngine.rank_profiles`) -/

/-- One entry of the list `rank_profiles` sorts. -/
structure RankedResult where
  profile : Profile
  scores : CompositeScores
  composite_score : ℝ

/-- The comparator of the ranking sort: descending by composite score. -/
def geScore (a b : RankedResult) : Bool :=
  decide (b.composite_score ≤ a.composite_score)

/-- The unsorted result list built by the loop of
`SimilarityEngine.rank_profiles`: every candidate except the requester
itself, scored against the requester; `candidate_embeddings[i]` is read
by the candidate's index (out-of-range reads yield `None`). -/
def scoredResults (requester_profile : Profile) (candidate_profiles : List Profile)
    (requester_embedding : Option (List ℝ))
    (candidate_embeddings : List (Option (List ℝ)))
    (parsed_query : Option ParsedQuery) (query_embedding : Option (List ℝ)) :
    List RankedResult :=
  candidate_profiles.enum.filterMap (fun ic =>
    if ic.2.id = requester_profile.id then none
    else
      let scores := calculate_composite_score requester_profile ic.2
        requester_embedding (candidate_embeddings.getD ic.1 none)
        parsed_query query_embedding
      some ⟨ic.2, scores, scores.composite_score⟩)

/-- `SimilarityEngine.rank_profiles`: scores the candidates, sorts by
composite score descending with Python's stable sort, and truncates to
the first `top_n`. -/
def rank_profiles (requester_profile : Profile) (candidate_profiles : List Profile)
    (requester_embedding : Option (List ℝ))
    (candidate_embeddings : List (Option (List ℝ)))
    (parsed_query : Option ParsedQuery) (query_embedding : Option (List ℝ))
    (top_n : ℕ) : List RankedResult :=
  (sortDescBy geScore (scoredResults requester_profile candidate_profiles
    requester_embedding candidate_embeddings parsed_query query_embedding)).take top_n

end

/-! ### The matching pipeline (`find_connections`) and its collaborators -/

/-- `CohereService.format_profile_for_rerank`: the ordered,-field-omitting
text block for a candidate.  Python joins `set(companies)` in unspecified
order; first-occurrence order models that choice. -/
def format_profile_for_rerank (p : Profile) : String :=
  let parts : List String :=
    (if p.name.isEmpty then [] else ["Name: " ++ p.name]) ++
    (if p.job_title.isEmpty then [] else ["Role: " ++ p.job_title]) ++
    (if p.company.isEmpty then [] else ["Company: " ++ p.company]) ++
    (if p.bio.isEmpty then [] else ["Bio: " ++ p.bio]) ++
    (if p.skills.isEmpty then [] else ["Skills: " ++ String.intercalate ", " p.skills]) ++
    (match p.education with
      | none => []
      | some e =>
        ["Education: " ++ (e.degree ++ " in " ++ e.field ++ " from " ++ e.university).trim]) ++
    (if p.work_history.isEmpty then []
     else
       let companies := (p.work_history.filterMap
         (fun w => if w.company.isEmpty then none else some w.company)).dedup
       if companies.isEmpty then []
       else ["Previous companies: " ++ String.intercalate ", " companies]) ++
    (if p.industry.isEmpty then [] else ["Industry: " ++ p.industry])
  String.intercalate " | " parts

/-- A record of one call issued to an external collaborator. -/
inductive CollabCall where
  | parseQ (query : String)
  | embedQ (texts : List String)
  | rerankQ (query : String) (texts : List String) (top_n : ℤ)
deriving DecidableEq

/-- The three external collaborators, as oracle functions.  Relevance
scores and embedding components are opaque floats, modelled as `ℚ`.
`clientRerank` returns `(index, relevance_score)` pairs like
`response.results`. -/
structure Collaborators where
  clientParse : String → Except String ParsedQuery
  clientEmbed : List String → Except String (List (List ℚ))
  clientRerank : String → List String → ℤ → Except String (List (ℕ × ℚ))

/-- `CohereService.generate_embeddings`: empty input short-circuits to
`[]` without a client call; otherwise the client is called. -/
def generate_embeddings (co : Collaborators) (texts : List String) :
    Except String (List (List ℚ)) × List CollabCall :=
  if texts.isEmpty then (.ok [], [])
  else (co.clientEmbed texts, [CollabCall.embedQ texts])

/-- A document handed to the reranker: formatted text, candidate id and
the original profile. -/
structure RerankDoc where
  text : String
  id : String
  profile : Profile

/-- A reranked document as produced by `rerank_documents`: the original
document plus the collaborator's relevance score and a 1-based rank. -/
structure RerankedDoc where
  doc : RerankDoc
  relevance_score : ℚ
  rank : ℕ

/-- Map the client's `(index, score)` results back onto the original
documents; an out-of-range index is Python's `IndexError` (`none`). -/
def mapRerank (documents : List RerankDoc) (rs : List (ℕ × ℚ)) :
    Option (List RerankedDoc) :=
  rs.enum.mapM (fun ir => (documents.get? ir.2.1).map
    (fun d => ⟨d, ir.2.2, ir.1 + 1⟩))

/-- `CohereService.rerank_documents`: empty input short-circuits to `[]`
without a client call; otherwise the client reranks the document texts
and the results are mapped back onto the original documents. -/
def rerank_documents (co : Collaborators) (query : String)
    (documents : List RerankDoc) (top_n : ℤ) :
    Except String (List RerankedDoc) × List CollabCall :=
  if documents.isEmpty then (.ok [], [])
  else
    let call := CollabCall.rerankQ query (documents.map (fun d => d.text)) top_n
    match co.clientRerank query (documents.map (fun d => d.text)) top_n with
    | .error e => (.error e, [call])
    | .ok rs =>
      match mapRerank documents rs with
      | none => (.error "IndexError", [call])
      | some docs => (.ok docs, [call])

/-- The errors `find_connections` can raise: the requester-not-found
`ValueError` and an uncaught collaborator failure. -/
inductive FCError where
  | profileNotFound (id : String)
  | collabError (msg : String)
deriving DecidableEq

/-- The profile summary embedded in a formatted result (skills truncated
to the first 5). -/
structure ProfileCard where
  id : String
  name : String
  job_title : String
  company : String
  bio : String
  skills : List String
  education : Option EduRec
  industry : String
deriving DecidableEq

/-- One formatted result of `find_connections`.  The explanation string
is an f-string of the rerank score and the mutual-connection count; its
two interpolated values are modelled as fields. -/
structure FormattedResult where
  rank : ℕ
  profile : ProfileCard
  match_score : ℚ
  rerank_score : ℚ
  mutual_connections : List MutualSummary
  connection_path : List String
  explanation_score : ℚ
  explanation_mutual_count : ℕ
deriving DecidableEq

/-- The summary of the requester returned with the response. -/
structure RequesterSummary where
  id : String
  name : String
  job_title : String
  company : String
deriving DecidableEq

/-- The response dict of `find_connections` (wall-clock metadata
omitted: real time is outside the model). -/
structure FindResponse where
  query : String
  parsed_query : ParsedQuery
  requester : RequesterSummary
  results : List FormattedResult
  total_candidates_evaluated : ℕ
deriving DecidableEq

/-- `NetworkMatchingEngine.find_connections`, instrumented with the list
of collaborator calls it issues, in order.  The requester is resolved
first (a `ValueError` aborts before any collaborator call); the query is
parsed (fatal on failure); the query embedding is best-effort (failures
and empty answers degrade to `None`); every other profile becomes a
rerank document; the reranked documents are formatted into results.
`max_results` is passed to the reranker as `top_n` unvalidated. -/
def find_connections (st : EngineState) (co : Collaborators)
    (requester_profile_id query : String) (max_results : ℤ) :
    Except FCError FindResponse × List CollabCall :=
  match alookup st.profiles requester_profile_id with
  | none => (.error (.profileNotFound requester_profile_id), [])
  | some requester_profile =>
    match co.clientParse query with
    | .error e => (.error (.collabError e), [CollabCall.parseQ query])
    | .ok parsed_query =>
      let embedPair := generate_embeddings co [query]
      let log1 := CollabCall.parseQ query :: embedPair.2
      let query_embedding : Option (List ℚ) := match embedPair.1 with
        | .ok (e :: _) => some e
        | _ => none
      let candidates := (st.profiles.map Prod.snd).filter
        (fun p => p.id ≠ requester_profile_id)
      let documents := candidates.map
        (fun c => RerankDoc.mk (format_profile_for_rerank c) c.id c)
      let rerankPair := rerank_documents co query documents max_results
      let log2 := log1 ++ rerankPair.2
      match rerankPair.1 with
      | .error e => (.error (.collabError e), log2)
      | .ok ranked_docs =>
        let formatted_results := ranked_docs.enum.map (fun ir =>
          let profile := ir.2.doc.profile
          let mutual_connections := find_mutual_connections st requester_profile_id profile.id
          { rank := ir.1 + 1
            profile := ⟨profile.id, profile.name, profile.job_title, profile.company,
              profile.bio, profile.skills.take 5, profile.education, profile.industry⟩
            match_score := pyround 3 ir.2.relevance_score
            rerank_score := ir.2.relevance_score
            mutual_connections := mutual_connections
            connection_path := find_shortest_path st requester_profile profile
            explanation_score := ir.2.relevance_score
            explanation_mutual_count := mutual_connections.length : FormattedResult })
        (.ok { query := query
               parsed_query := parsed_query
               requester := ⟨requester_profile.id, requester_profile.name,
                 requester_profile.job_title, requester_profile.company⟩
               results := formatted_results
               total_candidates_evaluated := candidates.length }, log2)

/-- The result-list length of a successful `find_connections` call
(`0` for a failed one); lets bounds be stated without binding the
response. -/
def okResultCount (r : Except FCError FindResponse) : ℕ :=
  match r with
  | .ok resp => resp.results.length
  | .error _ => 0

/-! ### Concrete fixtures used by witnesses and counterexamples -/

/-- A profile whose optional attributes are all absent. -/
def mkProfile (id name : String) (linkedin : List String) : Profile :=
  ⟨id, name, "", "", "", "", [], none, [], linkedin, []⟩

/-- A load input with an asymmetric pair: `A` lists `B`, but `B` lists
only `C` — exactly what the synthetic generator's independent sampling
produces. -/
def stC2 : EngineState :=
  initializeStore
    [mkProfile "A" "Alice" ["B"], mkProfile "B" "Bob" ["C"], mkProfile "C" "Carol" []]

/-- A load input with a dangling id `Z` listed by both profiles. -/
def stC4 : EngineState :=
  initializeStore [mkProfile "A" "Alice" ["B", "Z"], mkProfile "B" "Bob" ["A", "Z"]]

/-- A store in which `A` and `B` have the genuine mutual connection `C`. -/
def stC4w : EngineState :=
  initializeStore
    [mkProfile "A" "Alice" ["C"], mkProfile "B" "Bob" ["C"], mkProfile "C" "Carol" []]

/-- A store exercising all three path classifications:
`A`–`B` direct, `A`–`D` two-hop through `C`, `B`–`D` unconnected. -/
def stC6 : EngineState :=
  initializeStore
    [mkProfile "A" "Alice" ["B", "C"], mkProfile "B" "Bob" ["A"],
     mkProfile "C" "Carol" [], mkProfile "D" "Dave" ["C"]]

/-- Two profiles sharing a university with an MS and a PhD degree. -/
def eduMSProf : Profile :=
  ⟨"m", "Mia", "", "", "", "", [], some ⟨"X", "MS", ""⟩, [], [], []⟩

/-- See `eduMSProf`. -/
def eduPhDProf : Profile :=
  ⟨"p", "Pat", "", "", "", "", [], some ⟨"X", "PhD", ""⟩, [], [], []⟩

/-- Requester for the ranking counterexample. -/
def reqC5 : Profile := mkProfile "r" "Req" []

/-- Candidate with the lexicographically larger id, listed first. -/
def bC5 : Profile := mkProfile "b" "Bee" []

/-- Candidate with the lexicographically smaller id, listed second. -/
def aC5 : Profile := mkProfile "a" "Aye" []

/-- A query with no populated field. -/
def emptyQuery : ParsedQuery := ⟨[], [], [], [], [], ""⟩

/-- Trivial collaborators: parsing yields the empty query, embedding and
reranking yield empty results. -/
def coTriv : Collaborators :=
  ⟨fun _ => .ok emptyQuery, fun _ => .ok [], fun _ _ _ => .ok []⟩

/-- A two-profile store for pipeline runs. -/
def stC3 : EngineState :=
  initializeStore [mkProfile "a" "" [], mkProfile "b" "" []]

/-- Collaborators whose reranker honors its `top_n` contract: it returns
one result when `1 ≤ top_n` and none otherwise. -/
def coC3 : Collaborators :=
  ⟨fun _ => .ok emptyQuery,
   fun ts => .ok (ts.map (fun _ => [])),
   fun _ _ n => .ok (if 1 ≤ n then [(0, 1 / 2)] else [])⟩

/-- Whether an `Except` value is a success. -/
def exceptIsOk {ε α : Type} : Except ε α → Bool
  | .ok _ => true
  | .error _ => false

/-! ## Theorems -/

/-- In a store built by `initializeStore`, a profile found under a key
has that key as its id. -/
theorem alookup_map_id (ps : List Profile) (k : String) (p : Profile)
    (h : alookup (ps.map (fun p => (p.id, p))) k = some p) : p.id = k := by
  induction ps with
  | nil => simp [alookup] at h
  | cons a as ih =>
    simp only [List.map_cons, alookup] at h
    by_cases hk : a.id = k
    · rw [if_pos hk] at h
      cases h
      exact hk
    · rw [if_neg hk] at h
      exact ih h

/-- `List.mapM` over `Option` preserves length when it succeeds. -/
theorem length_of_mapM_option {α β : Type} (f : α → Option β) :
    ∀ (l : List α) (l2 : List β), l.mapM f = some l2 → l2.length = l.length := by
  intro l
  induction l with
  | nil =>
    intro l2 h
    simp only [List.mapM_nil, pure, Option.some.injEq] at h
    simp [← h]
  | cons a as ih =>
    intro l2 h
    rw [List.mapM_cons] at h
    cases hfa : f a with
    | none => rw [hfa] at h; simp at h
    | some b =>
      rw [hfa] at h
      cases hrest : as.mapM f with
      | none => rw [hrest] at h; simp at h
      | some bs =>
        rw [hrest] at h
        simp only [Option.bind_eq_bind, Option.some_bind, pure, Option.some.injEq] at h
        rw [← h]
        simp [ih bs hrest]

/-- Mapping rerank results back onto documents preserves the result
count. -/
theorem mapRerank_length (documents : List RerankDoc) (rs : List (ℕ × ℚ))
    (l2 : List RerankedDoc) (h : mapRerank documents rs = some l2) :
    l2.length = rs.length := by
  have := length_of_mapM_option
    (fun ir : ℕ × ℕ × ℚ => (documents.get? ir.2.1).map
      (fun d => RerankedDoc.mk d ir.2.2 (ir.1 + 1))) rs.enum l2 h
  simpa [List.enum_length] using this

/-- C2: the claim that connection symmetry holds after load fails: the
load loop overwrites a profile's cache entry (including back-edges
inserted earlier) with its own raw connection list, so for the loaded
profiles `A ↦ [B]`, `B ↦ [C]`, `C ↦ []` the final cache has `B` in `A`'s
list but not `A` in `B`'s — asymmetry observable by the cache-reading
operations, and the profiles' own lists are asymmetric as well. -/
theorem connection_symmetry_broken_by_load :
    "B" ∈ cacheList stC2 "A" ∧ "A" ∉ cacheList stC2 "B" ∧
    find_mutual_connections stC2 "A" "B" = [] := by
  decide

/-- C4 counterexample: loading connection data with the dangling id `Z`
(referenced by both `A` and `B`) does not fail — the store is populated,
`Z` even receives a cache entry as a key — and the mutual-connection
lookup silently drops `Z` instead of reporting a data-integrity error. -/
theorem dangling_reference_not_rejected :
    "Z" ∈ cacheList stC4 "A" ∧ "Z" ∈ cacheList stC4 "B" ∧
    (alookup stC4.profiles "Z").isNone = true ∧
    (alookup stC4.connections "Z").isSome = true ∧
    find_mutual_connections stC4 "A" "B" = [] := by
  decide

/-- C4 (amended): the load performs no referential-integrity check and
cannot fail; `find_mutual_connections` instead resolves every mutual id
against the profile store and silently skips unresolvable ones, so every
returned summary is a loaded profile whose id occurs in both cached
connection lists. -/
theorem find_mutual_connections_resolvable (ps : List Profile) (r t : String)
    (m : MutualSummary)
    (hm : m ∈ find_mutual_connections (initializeStore ps) r t) :
    (alookup (initializeStore ps).profiles m.id).isSome = true ∧
    m.id ∈ cacheList (initializeStore ps) r ∧
    m.id ∈ cacheList (initializeStore ps) t := by
  unfold find_mutual_connections at hm
  have hm2 := List.mem_of_mem_take hm
  rw [List.mem_filterMap] at hm2
  obtain ⟨mid, hmid, hsome⟩ := hm2
  rw [Option.map_eq_some'] at hsome
  obtain ⟨p, hp, hmk⟩ := hsome
  have hid : m.id = mid := by
    rw [← hmk]
    exact alookup_map_id ps mid p hp
  rw [List.mem_filter] at hmid
  obtain ⟨hdedup, hmem⟩ := hmid
  refine ⟨?_, ?_, ?_⟩
  · rw [hid, hp]
    rfl
  · rw [hid]
    exact List.mem_dedup.mp hdedup
  · rw [hid]
    exact of_decide_eq_true hmem

/-- C4 (amended) witness at a concrete store with the real mutual `C`. -/
theorem find_mutual_connections_resolvable_witness :
    (alookup stC4w.profiles (MutualSummary.mk "C" "Carol" "" "").id).isSome = true ∧
    (MutualSummary.mk "C" "Carol" "" "").id ∈ cacheList stC4w "A" ∧
    (MutualSummary.mk "C" "Carol" "" "").id ∈ cacheList stC4w "B" :=
  find_mutual_connections_resolvable
    [mkProfile "A" "Alice" ["C"], mkProfile "B" "Bob" ["C"], mkProfile "C" "Carol" []]
    "A" "B" (MutualSummary.mk "C" "Carol" "" "") (by decide)

/-- C6: path classification returns `["direct"]` when profile2's id is
in profile1's connection list; otherwise `["2-hop", name]` with the name
of the first mutual connection when the mutual-connection set is
non-empty, and `["no_direct_path"]` when it is empty. -/
theorem path_classification (st : EngineState) (p1 p2 : Profile) :
    (p2.id ∈ p1.linkedin_connections → find_shortest_path st p1 p2 = ["direct"]) ∧
    (p2.id ∉ p1.linkedin_connections → ∀ m ms,
      find_mutual_connections st p1.id p2.id = m :: ms →
      find_shortest_path st p1 p2 = ["2-hop", m.name]) ∧
    (p2.id ∉ p1.linkedin_connections →
      find_mutual_connections st p1.id p2.id = [] →
      find_shortest_path st p1 p2 = ["no_direct_path"]) := by
  refine ⟨fun h => ?_, fun h m ms hm => ?_, fun h hm => ?_⟩ <;>
    unfold find_shortest_path
  · rw [if_pos h]
  · rw [if_neg h, hm]
  · rw [if_neg h, hm]

/-- C6 witness: the three classifications at a concrete store. -/
theorem path_classification_witness :
    find_shortest_path stC6 (mkProfile "A" "Alice" ["B", "C"])
      (mkProfile "B" "Bob" ["A"]) = ["direct"] ∧
    find_shortest_path stC6 (mkProfile "A" "Alice" ["B", "C"])
      (mkProfile "D" "Dave" ["C"]) = ["2-hop", "Carol"] ∧
    find_shortest_path stC6 (mkProfile "B" "Bob" ["A"])
      (mkProfile "D" "Dave" ["C"]) = ["no_direct_path"] := by
  refine ⟨(path_classification stC6 _ _).1 (by decide),
    (path_classification stC6 _ _).2.1 (by decide)
      (MutualSummary.mk "C" "Carol" "" "") [] (by decide),
    (path_classification stC6 _ _).2.2 (by decide) (by decide)⟩

/-- C10: `get_network_stats` divides by the profile count without a
guard: on an empty store the division raises (`none`); on any store with
at least one profile the call returns a stats summary. -/
theorem network_stats_defined_iff_nonempty (st : EngineState) :
    (st.profiles = [] → get_network_stats st = none) ∧
    (st.profiles ≠ [] → (get_network_stats st).isSome = true) := by
  constructor
  · intro h
    simp [get_network_stats, h, pydiv]
  · intro h
    have hl : st.profiles.length ≠ 0 := by
      simpa [List.length_eq_zero] using h
    simp [get_network_stats, pydiv, Nat.cast_eq_zero, hl]

/-- C10 witness: the empty store fails, a one-profile store succeeds. -/
theorem network_stats_witness :
    get_network_stats ⟨[], []⟩ = none ∧
    (get_network_stats (initializeStore [mkProfile "A" "Alice" []])).isSome = true :=
  ⟨(network_stats_defined_iff_nonempty ⟨[], []⟩).1 rfl,
   (network_stats_defined_iff_nonempty _).2 (List.cons_ne_nil _ _)⟩

/-- C7: a `find_connections` call whose requester id is not in the
profile store fails with the not-found error before issuing any
collaborator call. -/
theorem requester_not_found_short_circuits (st : EngineState) (co : Collaborators)
    (rid query : String) (max_results : ℤ)
    (h : alookup st.profiles rid = none) :
    find_connections st co rid query max_results =
      (.error (.profileNotFound rid), []) := by
  unfold find_connections
  rw [h]

/-- C7 witness: empty store, concrete collaborators. -/
theorem requester_not_found_witness :
    find_connections ⟨[], []⟩ coTriv "x" "q" 5 =
      (.error (.profileNotFound "x"), []) :=
  requester_not_found_short_circuits ⟨[], []⟩ coTriv "x" "q" 5 rfl

/-- C3 counterexample: a call with `max_results = 0` is not rejected — no
validation happens, the call succeeds, and all three collaborators
(parse, embed, rerank) are invoked, the reranker with `top_n = 0`. -/
theorem max_results_not_validated :
    exceptIsOk (find_connections stC3 coC3 "a" "find" 0).1 = true ∧
    (find_connections stC3 coC3 "a" "find" 0).2 =
      [CollabCall.parseQ "find", CollabCall.embedQ ["find"],
       CollabCall.rerankQ "find" [""] 0] := by
  decide

/-- If the rerank step succeeds, its result count is bounded by `top_n`
whenever the rerank collaborator honors its `top_n` contract. -/
theorem rerank_documents_ok_length (co : Collaborators) (query : String)
    (documents : List RerankDoc) (top_n : ℤ)
    (hco : ∀ q2 ts n rs, 0 < n → co.clientRerank q2 ts n = .ok rs →
      (rs.length : ℤ) ≤ n)
    (hn : 0 < top_n) (l : List RerankedDoc)
    (h : (rerank_documents co query documents top_n).1 = .ok l) :
    (l.length : ℤ) ≤ top_n := by
  unfold rerank_documents at h
  by_cases hd : documents.isEmpty
  · rw [if_pos hd] at h
    cases h
    simp
    omega
  · rw [if_neg hd] at h
    cases hcr : co.clientRerank query (documents.map (fun d => d.text)) top_n with
    | error e => rw [hcr] at h; dsimp only at h; cases h
    | ok rs =>
      rw [hcr] at h
      dsimp only at h
      cases hmap : mapRerank documents rs with
      | none => rw [hmap] at h; dsimp only at h; cases h
      | some l2 =>
        rw [hmap] at h
        dsimp only at h
        cases h
        rw [mapRerank_length documents rs l hmap]
        exact hco query (documents.map (fun d => d.text)) top_n rs hn hcr

/-- C3 (amended): `find_connections` never validates `max_results`; for
`max_results > 0` the returned result list has length at most
`max_results` provided the rerank collaborator honors its `top_n`
contract (the result count equals the collaborator's result count). -/
theorem find_connections_result_bound (st : EngineState) (co : Collaborators)
    (rid query : String) (max_results : ℤ)
    (hco : ∀ q2 ts n rs, 0 < n → co.clientRerank q2 ts n = .ok rs →
      (rs.length : ℤ) ≤ n)
    (hm : 0 < max_results) :
    (okResultCount (find_connections st co rid query max_results).1 : ℤ) ≤
      max_results := by
  unfold find_connections
  cases hreq : alookup st.profiles rid with
  | none => simp [okResultCount]; omega
  | some requester =>
    cases hparse : co.clientParse query with
    | error e => simp [okResultCount]; omega
    | ok pq =>
      simp only []
      cases hrr : (rerank_documents co query
          (((st.profiles.map Prod.snd).filter (fun p => p.id ≠ rid)).map
            (fun c => RerankDoc.mk (format_profile_for_rerank c) c.id c))
          max_results).1 with
      | error e =>
        dsimp only
        simp [okResultCount]
        omega
      | ok ranked_docs =>
        dsimp only
        simp only [okResultCount, List.length_map, List.enum_length]
        exact rerank_documents_ok_length co query _ max_results hco hm
          ranked_docs hrr

/-- C3 (amended) witness: with a contract-honoring reranker and
`max_results = 1`, the result count is at most 1. -/
theorem find_connections_result_bound_witness :
    (okResultCount (find_connections stC3 coC3 "a" "find" 1).1 : ℤ) ≤ 1 := by
  refine find_connections_result_bound stC3 coC3 "a" "find" 1 ?_ (by norm_num)
  intro q2 ts n rs hn hok
  have hrs : (if 1 ≤ n then [((0 : ℕ), (1 : ℚ) / 2)] else []) = rs := by
    have h2 : Except.ok (ε := String)
        (if 1 ≤ n then [((0 : ℕ), (1 : ℚ) / 2)] else []) = .ok rs := hok
    cases h2
    rfl
  rw [← hrs]
  by_cases h1 : 1 ≤ n
  · rw [if_pos h1]
    simpa using h1
  · rw [if_neg h1]
    simp
    omega


/-- When both education records are present, education similarity is the
sum of an independent university term and degree term (the additive form
of the claim). -/
theorem education_similarity_eq (p1 p2 : Profile) (e1 e2 : EduRec)
    (h1 : p1.education = some e1) (h2 : p2.education = some e2) :
    calculate_education_similarity p1 p2 =
      (if ¬e1.university.isEmpty ∧ ¬e2.university.isEmpty ∧
          strLower e1.university = strLower e2.university then (0.7 : ℝ) else 0) +
      (if ¬e1.degree.isEmpty ∧ ¬e2.degree.isEmpty ∧
          strLower e1.degree = strLower e2.degree then (0.3 : ℝ)
       else if ¬e1.degree.isEmpty ∧ ¬e2.degree.isEmpty ∧
          degreeAdjacent (strLower e1.degree) (strLower e2.degree) then (0.15 : ℝ)
       else 0) := by
  unfold calculate_education_similarity
  rw [h1, h2]
  dsimp only
  by_cases hdp : ¬e1.degree.isEmpty ∧ ¬e2.degree.isEmpty
  · rw [if_pos hdp]
    by_cases he : strLower e1.degree = strLower e2.degree
    · rw [if_pos he, if_pos (show ¬e1.degree.isEmpty = true ∧ ¬e2.degree.isEmpty = true ∧
          strLower e1.degree = strLower e2.degree from ⟨hdp.1, hdp.2, he⟩)]
    · rw [if_neg he]
      rw [if_neg (show ¬(¬e1.degree.isEmpty = true ∧ ¬e2.degree.isEmpty = true ∧
          strLower e1.degree = strLower e2.degree) from fun hc => he hc.2.2)]
      by_cases ha : degreeAdjacent (strLower e1.degree) (strLower e2.degree) = true
      · rw [if_pos ha, if_pos (show ¬e1.degree.isEmpty = true ∧ ¬e2.degree.isEmpty = true ∧
            degreeAdjacent (strLower e1.degree) (strLower e2.degree) = true from
          ⟨hdp.1, hdp.2, ha⟩)]
      · rw [if_neg ha]
        rw [if_neg (show ¬(¬e1.degree.isEmpty = true ∧ ¬e2.degree.isEmpty = true ∧
            degreeAdjacent (strLower e1.degree) (strLower e2.degree) = true) from
          fun hc => ha hc.2.2)]
  · rw [if_neg hdp]
    rw [if_neg (show ¬(¬e1.degree.isEmpty = true ∧ ¬e2.degree.isEmpty = true ∧
        strLower e1.degree = strLower e2.degree) from fun hc => hdp ⟨hc.1, hc.2.1⟩)]
    rw [if_neg (show ¬(¬e1.degree.isEmpty = true ∧ ¬e2.degree.isEmpty = true ∧
        degreeAdjacent (strLower e1.degree) (strLower e2.degree) = true) from
      fun hc => hdp ⟨hc.1, hc.2.1⟩)]

/-- C8: education similarity is 0 when either profile's education record
is absent; otherwise it equals the sum of 0.7 if both universities are
present and match case-insensitively, plus 0.3 if both degrees are
present and match exactly case-insensitively, or 0.15 if they form an
adjacent level pair; in particular same-university MS vs PhD scores
exactly 0.85. -/
theorem education_similarity_additive (p1 p2 : Profile) :
    (p1.education = none ∨ p2.education = none →
      calculate_education_similarity p1 p2 = 0) ∧
    (∀ e1 e2, p1.education = some e1 → p2.education = some e2 →
      calculate_education_similarity p1 p2 =
        (if ¬e1.university.isEmpty ∧ ¬e2.university.isEmpty ∧
            strLower e1.university = strLower e2.university then (0.7 : ℝ) else 0) +
        (if ¬e1.degree.isEmpty ∧ ¬e2.degree.isEmpty ∧
            strLower e1.degree = strLower e2.degree then (0.3 : ℝ)
         else if ¬e1.degree.isEmpty ∧ ¬e2.degree.isEmpty ∧
            degreeAdjacent (strLower e1.degree) (strLower e2.degree) then (0.15 : ℝ)
         else 0)) ∧
    calculate_education_similarity eduMSProf eduPhDProf = 0.85 := by
  refine ⟨fun h => ?_, fun e1 e2 h1 h2 => education_similarity_eq p1 p2 e1 e2 h1 h2, ?_⟩
  · unfold calculate_education_similarity
    rcases h with h | h
    · rw [h]
    · rw [h]
      cases p1.education <;> rfl
  · rw [education_similarity_eq eduMSProf eduPhDProf ⟨"X", "MS", ""⟩ ⟨"X", "PhD", ""⟩ rfl rfl]
    rw [if_pos (by decide : ¬("X" : String).isEmpty ∧ ¬("X" : String).isEmpty ∧
        strLower ("X" : String) = strLower ("X" : String))]
    rw [if_neg (by decide : ¬(¬("MS" : String).isEmpty ∧ ¬("PhD" : String).isEmpty ∧
        strLower ("MS" : String) = strLower ("PhD" : String)))]
    rw [if_pos (by decide : ¬("MS" : String).isEmpty ∧ ¬("PhD" : String).isEmpty ∧
        (degreeAdjacent (strLower ("MS" : String)) (strLower ("PhD" : String)) = true))]
    norm_num

/-- C8 witness: the absent-education case and the MS/PhD instance. -/
theorem education_similarity_additive_witness :
    calculate_education_similarity (mkProfile "u" "U" []) (mkProfile "v" "V" []) = 0 ∧
    calculate_education_similarity eduMSProf eduPhDProf =
      (if ¬("X" : String).isEmpty ∧ ¬("X" : String).isEmpty ∧
          strLower ("X" : String) = strLower ("X" : String) then (0.7 : ℝ) else 0) +
      (if ¬("MS" : String).isEmpty ∧ ¬("PhD" : String).isEmpty ∧
          strLower ("MS" : String) = strLower ("PhD" : String) then (0.3 : ℝ)
       else if ¬("MS" : String).isEmpty ∧ ¬("PhD" : String).isEmpty ∧
          degreeAdjacent (strLower ("MS" : String)) (strLower ("PhD" : String)) = true
          then (0.15 : ℝ)
       else 0) :=
  ⟨(education_similarity_additive _ _).1 (Or.inl rfl),
   (education_similarity_additive _ _).2.1 ⟨"X", "MS", ""⟩ ⟨"X", "PhD", ""⟩ rfl rfl⟩

set_option maxHeartbeats 3200000 in
/-- The sequential criteria accumulation of `calculate_query_relevance`
computes exactly the average of the populated fields' scores. -/
theorem query_relevance_eq_spec (p : Profile) (q : ParsedQuery)
    (qe pe : Option (List ℝ)) :
    calculate_query_relevance p q qe pe = queryRelevanceSpec p q qe pe := by
  unfold calculate_query_relevance queryRelevanceSpec fieldScores
  rcases qe with _ | qev <;> rcases pe with _ | pev <;> dsimp only <;>
    generalize jobTitleScore p q = a <;>
    generalize companyScore p q = b <;>
    generalize skillsScore p q = c <;>
    generalize industryScore p q = d <;>
    generalize educationScore p q = e <;>
    generalize experienceScore p q = f <;>
    by_cases h1 : q.job_titles.isEmpty <;>
    by_cases h2 : q.companies.isEmpty <;>
    by_cases h3 : q.skills.isEmpty <;>
    by_cases h4 : q.industries.isEmpty <;>
    by_cases h5 : q.education.isEmpty <;>
    by_cases h6 : q.experience_level.isEmpty = false <;>
    by_cases h7 : q.experience_level = "any" <;>
    simp [h1, h2, h3, h4, h5, h6, h7, add_assoc]

/-- C9: query relevance equals the average over exactly the populated
query fields of each field's score ("any" experience excluded, the
embedding criterion only when both embeddings are present), and a query
with zero fields and no embedding yields 0 (totally, without raising). -/
theorem query_relevance_average (p : Profile) (q : ParsedQuery)
    (qe pe : Option (List ℝ)) :
    calculate_query_relevance p q qe pe = queryRelevanceSpec p q qe pe ∧
    (q.job_titles = [] → q.companies = [] → q.skills = [] → q.industries = [] →
      q.education = [] → (q.experience_level = "" ∨ q.experience_level = "any") →
      calculate_query_relevance p q none none = 0) := by
  refine ⟨query_relevance_eq_spec p q qe pe, fun hjt hc hs hi he hexp => ?_⟩
  rw [query_relevance_eq_spec]
  unfold queryRelevanceSpec fieldScores
  rcases hexp with hx | hx
  · have hx2 : q.experience_level.isEmpty = true := by rw [hx]; rfl
    simp [hjt, hc, hs, hi, he, hx2]
  · simp [hjt, hc, hs, hi, he, hx]

/-- C9 witness: the empty query on a concrete profile. -/
theorem query_relevance_average_witness :
    calculate_query_relevance (mkProfile "w" "Wyn" []) emptyQuery none none =
      queryRelevanceSpec (mkProfile "w" "Wyn" []) emptyQuery none none ∧
    calculate_query_relevance (mkProfile "w" "Wyn" []) emptyQuery none none = 0 :=
  ⟨(query_relevance_average (mkProfile "w" "Wyn" []) emptyQuery none none).1,
   (query_relevance_average (mkProfile "w" "Wyn" []) emptyQuery none none).2
     rfl rfl rfl rfl rfl (Or.inl rfl)⟩

/-- The self dot product is nonnegative. -/
theorem dotList_self_nonneg (v : List ℝ) : 0 ≤ dotList v v := by
  unfold dotList
  exact Finset.sum_nonneg (fun i _ => mul_self_nonneg _)

/-- Extending the index range beyond a vector's length does not change
its sum of squares. -/
theorem sum_sq_eq_dotList_self (v : List ℝ) (n : ℕ) (hn : v.length ≤ n) :
    ∑ i ∈ Finset.range n, v.getD i 0 ^ 2 = dotList v v := by
  have h1 : ∀ i ∈ Finset.range n, i ∉ Finset.range v.length → v.getD i 0 ^ 2 = 0 := by
    intro i _ hi
    rw [List.getD_eq_default]
    · norm_num
    · simpa using hi
  calc ∑ i ∈ Finset.range n, v.getD i 0 ^ 2
      = ∑ i ∈ Finset.range v.length, v.getD i 0 ^ 2 :=
        (Finset.sum_subset (Finset.range_subset.mpr hn) h1).symm
    _ = ∑ i ∈ Finset.range v.length, v.getD i 0 * v.getD i 0 :=
        Finset.sum_congr rfl (fun i _ => by rw [sq])
    _ = dotList v v := by unfold dotList; rw [max_self]

/-- Cauchy-Schwarz: cosine similarity never exceeds 1. -/
theorem cosineSim_le_one (v w : List ℝ) : cosineSim v w ≤ 1 := by
  have key : dotList v w ≤ Real.sqrt (dotList v v) * Real.sqrt (dotList w w) := by
    have h2 := Real.sum_mul_le_sqrt_mul_sqrt (Finset.range (max v.length w.length))
      (fun i => v.getD i 0) (fun i => w.getD i 0)
    rw [sum_sq_eq_dotList_self v _ (le_max_left _ _),
      sum_sq_eq_dotList_self w _ (le_max_right _ _)] at h2
    exact h2
  unfold cosineSim
  rcases eq_or_lt_of_le (mul_nonneg (Real.sqrt_nonneg (dotList v v))
      (Real.sqrt_nonneg (dotList w w))) with h | h
  · rw [← h, div_zero]
    exact zero_le_one
  · rw [div_le_one h]
    exact key

/-- The semantic similarity metric lies in `[0, 1]`. -/
theorem calculate_semantic_similarity_bounds (e1 e2 : Option (List ℝ)) :
    0 ≤ calculate_semantic_similarity e1 e2 ∧ calculate_semantic_similarity e1 e2 ≤ 1 := by
  cases e1 with
  | none => exact ⟨le_refl 0, zero_le_one⟩
  | some v =>
    cases e2 with
    | none => exact ⟨le_refl 0, zero_le_one⟩
    | some w => exact ⟨le_max_left 0 _, max_le zero_le_one (cosineSim_le_one v w)⟩

/-- A successful dict lookup finds a stored binding. -/
theorem alookup_mem {α : Type} (l : List (String × α)) (k : String) (v : α)
    (h : alookup l k = some v) : (k, v) ∈ l := by
  induction l with
  | nil => simp [alookup] at h
  | cons a as ih =>
    obtain ⟨k0, v0⟩ := a
    simp only [alookup] at h
    by_cases hk : k0 = k
    · rw [if_pos hk] at h
      cases h
      subst hk
      exact List.mem_cons_self _ _
    · rw [if_neg hk] at h
      exact List.mem_cons_of_mem _ (ih h)

/-- The relationship-strength metric lies in `[0, 1]` whenever every
stored interaction strength does. -/
theorem calculate_relationship_strength_bounds (p1 p2 : Profile)
    (h1 : ∀ x ∈ p1.email_interactions, 0 ≤ x.2 ∧ x.2 ≤ 1)
    (h2 : ∀ x ∈ p2.email_interactions, 0 ≤ x.2 ∧ x.2 ≤ 1) :
    0 ≤ calculate_relationship_strength p1 p2 ∧
    calculate_relationship_strength p1 p2 ≤ 1 := by
  unfold calculate_relationship_strength
  cases ha : alookup p1.email_interactions p2.id with
  | none =>
    cases hb : alookup p2.email_interactions p1.id with
    | none => exact ⟨le_refl 0, zero_le_one⟩
    | some t =>
      have ht := (h2 (p1.id, t) (alookup_mem _ _ _ hb)).2
      exact ⟨le_max_left 0 t, max_le zero_le_one ht⟩
  | some s =>
    have hs := (h1 (p2.id, s) (alookup_mem _ _ _ ha)).2
    cases hb : alookup p2.email_interactions p1.id with
    | none => exact ⟨le_max_left 0 s, max_le zero_le_one hs⟩
    | some t =>
      have ht := (h2 (p1.id, t) (alookup_mem _ _ _ hb)).2
      exact ⟨le_trans (le_max_left 0 s) (le_max_left _ t),
        max_le (max_le zero_le_one hs) ht⟩

/-- The mutual-connection Jaccard metric lies in `[0, 1]`. -/
theorem calculate_mutual_connections_bounds (p1 p2 : Profile) :
    0 ≤ calculate_mutual_connections p1 p2 ∧ calculate_mutual_connections p1 p2 ≤ 1 := by
  simp only [calculate_mutual_connections]
  split_ifs with hg hz
  · exact ⟨le_refl 0, zero_le_one⟩
  · exact ⟨le_refl 0, zero_le_one⟩
  · have hpos : (0 : ℝ) < ((p1.linkedin_connections.toFinset ∪
        p2.linkedin_connections.toFinset).card : ℝ) := by
      exact_mod_cast Nat.pos_of_ne_zero hz
    constructor
    · positivity
    · rw [div_le_one hpos]
      exact_mod_cast Finset.card_le_card Finset.inter_subset_union

/-- The company-overlap Jaccard metric lies in `[0, 1]`. -/
theorem calculate_company_overlap_bounds (p1 p2 : Profile) :
    0 ≤ calculate_company_overlap p1 p2 ∧ calculate_company_overlap p1 p2 ≤ 1 := by
  simp only [calculate_company_overlap]
  split_ifs with hg hz
  · exact ⟨le_refl 0, zero_le_one⟩
  · have hpos : (0 : ℝ) < ((profileCompanies p1 ∪ profileCompanies p2).card : ℝ) := by
      exact_mod_cast hz
    constructor
    · positivity
    · rw [div_le_one hpos]
      exact_mod_cast Finset.card_le_card Finset.inter_subset_union
  · exact ⟨le_refl 0, zero_le_one⟩

/-- The education-similarity metric lies in `[0, 1]`. -/
theorem calculate_education_similarity_bounds (p1 p2 : Profile) :
    0 ≤ calculate_education_similarity p1 p2 ∧
    calculate_education_similarity p1 p2 ≤ 1 := by
  unfold calculate_education_similarity
  cases hp : p1.education with
  | none => exact ⟨le_refl 0, zero_le_one⟩
  | some e1 =>
    cases hq : p2.education with
    | none => exact ⟨le_refl 0, zero_le_one⟩
    | some e2 =>
      dsimp only
      constructor <;> split_ifs <;> norm_num

/-- The job-title criterion score lies in `[0, 1]`. -/
theorem jobTitleScore_bounds (p : Profile) (q : ParsedQuery) :
    0 ≤ jobTitleScore p q ∧ jobTitleScore p q ≤ 1 := by
  unfold jobTitleScore
  split_ifs <;> norm_num

/-- The company criterion score lies in `[0, 1]`. -/
theorem companyScore_bounds (p : Profile) (q : ParsedQuery) :
    0 ≤ companyScore p q ∧ companyScore p q ≤ 1 := by
  unfold companyScore
  split_ifs <;> norm_num

/-- The skills criterion score lies in `[0, 1]`. -/
theorem skillsScore_bounds (p : Profile) (q : ParsedQuery) :
    0 ≤ skillsScore p q ∧ skillsScore p q ≤ 1 := by
  unfold skillsScore
  constructor
  · positivity
  · rcases Nat.eq_zero_or_pos q.skills.length with h | h
    · have hz : (q.skills.length : ℝ) = 0 := by exact_mod_cast h
      rw [hz, div_zero]
      exact zero_le_one
    · rw [div_le_one (by exact_mod_cast h)]
      exact_mod_cast List.length_filter_le _ _

/-- The industry criterion score lies in `[0, 1]`. -/
theorem industryScore_bounds (p : Profile) (q : ParsedQuery) :
    0 ≤ industryScore p q ∧ industryScore p q ≤ 1 := by
  unfold industryScore
  split_ifs <;> norm_num

/-- The education criterion score lies in `[0, 1]`. -/
theorem educationScore_bounds (p : Profile) (q : ParsedQuery) :
    0 ≤ educationScore p q ∧ educationScore p q ≤ 1 := by
  unfold educationScore
  dsimp only
  split_ifs <;> norm_num

/-- The experience criterion score lies in `[0, 1]`. -/
theorem experienceScore_bounds (p : Profile) (q : ParsedQuery) :
    0 ≤ experienceScore p q ∧ experienceScore p q ≤ 1 := by
  unfold experienceScore
  dsimp only
  split_ifs <;> norm_num

/-- Membership in a conditional singleton forces the value. -/
theorem mem_ite_singleton {c : Prop} [Decidable c] {x s : ℝ}
    (h : x ∈ if c then [s] else ([] : List ℝ)) : x = s := by
  split_ifs at h
  · simpa using h
  · simp at h

/-- Every populated-field score lies in `[0, 1]`. -/
theorem fieldScores_bounds (p : Profile) (q : ParsedQuery)
    (qe pe : Option (List ℝ)) :
    ∀ x ∈ fieldScores p q qe pe, 0 ≤ x ∧ x ≤ 1 := by
  intro x hx
  unfold fieldScores at hx
  have hchunks : x ∈ (if ¬q.job_titles.isEmpty then [jobTitleScore p q] else []) ++
      (if ¬q.companies.isEmpty then [companyScore p q] else []) ++
      (if ¬q.skills.isEmpty then [skillsScore p q] else []) ++
      (if ¬q.industries.isEmpty then [industryScore p q] else []) ++
      (if ¬q.education.isEmpty then [educationScore p q] else []) ++
      (if ¬q.experience_level.isEmpty ∧ q.experience_level ≠ "any" then
        [experienceScore p q] else []) ∨
      x ∈ (match qe, pe with
        | some qev, some pev => [calculate_semantic_similarity (some qev) (some pev)]
        | _, _ => ([] : List ℝ)) := List.mem_append.mp hx
  rcases hchunks with hl | hr
  · rcases List.mem_append.mp hl with hl2 | h6
    · rcases List.mem_append.mp hl2 with hl3 | h5
      · rcases List.mem_append.mp hl3 with hl4 | h4
        · rcases List.mem_append.mp hl4 with hl5 | h3
          · rcases List.mem_append.mp hl5 with h1 | h2
            · obtain rfl := mem_ite_singleton h1
              exact jobTitleScore_bounds p q
            · obtain rfl := mem_ite_singleton h2
              exact companyScore_bounds p q
          · obtain rfl := mem_ite_singleton h3
            exact skillsScore_bounds p q
        · obtain rfl := mem_ite_singleton h4
          exact industryScore_bounds p q
      · obtain rfl := mem_ite_singleton h5
        exact educationScore_bounds p q
    · obtain rfl := mem_ite_singleton h6
      exact experienceScore_bounds p q
  · rcases qe with _ | qev
    · simp at hr
    · rcases pe with _ | pev
      · simp at hr
      · have hx2 : x = calculate_semantic_similarity (some qev) (some pev) := by
          simpa using hr
        rw [hx2]
        exact calculate_semantic_similarity_bounds (some qev) (some pev)

/-- The average of a list of values in `[0, 1]` (with zero average for
the empty list) lies in `[0, 1]`. -/
theorem list_avg_bounds (l : List ℝ) (h : ∀ x ∈ l, 0 ≤ x ∧ x ≤ 1) :
    0 ≤ (if l.isEmpty then (0 : ℝ) else l.sum / (l.length : ℝ)) ∧
    (if l.isEmpty then (0 : ℝ) else l.sum / (l.length : ℝ)) ≤ 1 := by
  split_ifs with he
  · exact ⟨le_refl 0, zero_le_one⟩
  · have hlen : 0 < l.length := by
      cases l with
      | nil => simp at he
      | cons a as => simp
    have hlenR : (0 : ℝ) < (l.length : ℝ) := by exact_mod_cast hlen
    have hsum0 : 0 ≤ l.sum := List.sum_nonneg (fun x hx => (h x hx).1)
    constructor
    · positivity
    · rw [div_le_one hlenR]
      have hb := List.sum_le_card_nsmul l 1 (fun x hx => (h x hx).2)
      simpa using hb

/-- The query-relevance metric lies in `[0, 1]`. -/
theorem calculate_query_relevance_bounds (p : Profile) (q : ParsedQuery)
    (qe pe : Option (List ℝ)) :
    0 ≤ calculate_query_relevance p q qe pe ∧
    calculate_query_relevance p q qe pe ≤ 1 := by
  rw [query_relevance_eq_spec]
  unfold queryRelevanceSpec
  exact list_avg_bounds _ (fieldScores_bounds p q qe pe)

/-- C1: for profiles whose stored interaction strengths lie in `[0, 1]`,
any embeddings and any parsed query, the composite score lies in `[0, 1]`
and equals the weighted sum of the six per-metric scores with the
weights of `SimilarityEngine.__init__` (0.25, 0.20, 0.15, 0.15, 0.10,
0.15, summing to 1). -/
theorem composite_score_correct (p1 p2 : Profile)
    (pe1 pe2 : Option (List ℝ)) (pq : Option ParsedQuery) (qe : Option (List ℝ))
    (h1 : ∀ x ∈ p1.email_interactions, 0 ≤ x.2 ∧ x.2 ≤ 1)
    (h2 : ∀ x ∈ p2.email_interactions, 0 ≤ x.2 ∧ x.2 ≤ 1) :
    0 ≤ (calculate_composite_score p1 p2 pe1 pe2 pq qe).composite_score ∧
    (calculate_composite_score p1 p2 pe1 pe2 pq qe).composite_score ≤ 1 ∧
    (calculate_composite_score p1 p2 pe1 pe2 pq qe).composite_score =
      (calculate_composite_score p1 p2 pe1 pe2 pq qe).semantic_similarity *
        weights_semantic_similarity +
      (calculate_composite_score p1 p2 pe1 pe2 pq qe).relationship_strength *
        weights_relationship_strength +
      (calculate_composite_score p1 p2 pe1 pe2 pq qe).mutual_connections *
        weights_mutual_connections +
      (calculate_composite_score p1 p2 pe1 pe2 pq qe).company_overlap *
        weights_company_overlap +
      (calculate_composite_score p1 p2 pe1 pe2 pq qe).education_similarity *
        weights_education_similarity +
      (calculate_composite_score p1 p2 pe1 pe2 pq qe).query_relevance *
        weights_query_relevance ∧
    weights_semantic_similarity = 0.25 ∧ weights_relationship_strength = 0.20 ∧
    weights_mutual_connections = 0.15 ∧ weights_company_overlap = 0.15 ∧
    weights_education_similarity = 0.10 ∧ weights_query_relevance = 0.15 ∧
    weights_semantic_similarity + weights_relationship_strength +
      weights_mutual_connections + weights_company_overlap +
      weights_education_similarity + weights_query_relevance = 1 := by
  have hs := calculate_semantic_similarity_bounds pe1 pe2
  have hr := calculate_relationship_strength_bounds p1 p2 h1 h2
  have hm := calculate_mutual_connections_bounds p1 p2
  have hc := calculate_company_overlap_bounds p1 p2
  have he := calculate_education_similarity_bounds p1 p2
  have hq : 0 ≤ (match pq, qe with
      | some pqv, some qev => calculate_query_relevance p2 pqv (some qev) pe2
      | _, _ => (0 : ℝ)) ∧
      (match pq, qe with
      | some pqv, some qev => calculate_query_relevance p2 pqv (some qev) pe2
      | _, _ => (0 : ℝ)) ≤ 1 := by
    rcases pq with _ | pqv
    · exact ⟨le_refl 0, zero_le_one⟩
    · rcases qe with _ | qev
      · exact ⟨le_refl 0, zero_le_one⟩
      · exact calculate_query_relevance_bounds p2 pqv (some qev) pe2
  simp only [calculate_composite_score]
  refine ⟨?_, ?_, trivial, rfl, rfl, rfl, rfl, rfl, rfl, ?_⟩
  · simp only [weights_semantic_similarity, weights_relationship_strength,
      weights_mutual_connections, weights_company_overlap,
      weights_education_similarity, weights_query_relevance]
    linarith [hs.1, hr.1, hm.1, hc.1, he.1, hq.1]
  · simp only [weights_semantic_similarity, weights_relationship_strength,
      weights_mutual_connections, weights_company_overlap,
      weights_education_similarity, weights_query_relevance]
    linarith [hs.1, hs.2, hr.1, hr.2, hm.1, hm.2, hc.1, hc.2, he.1, he.2,
      hq.1, hq.2]
  · norm_num [weights_semantic_similarity, weights_relationship_strength,
      weights_mutual_connections, weights_company_overlap,
      weights_education_similarity, weights_query_relevance]

/-- C1 witness: two concrete profiles with empty interaction maps. -/
theorem composite_score_correct_witness :
    0 ≤ (calculate_composite_score (mkProfile "x" "Xan" []) (mkProfile "y" "Yve" [])
      none none none none).composite_score ∧
    (calculate_composite_score (mkProfile "x" "Xan" []) (mkProfile "y" "Yve" [])
      none none none none).composite_score ≤ 1 :=
  ⟨(composite_score_correct (mkProfile "x" "Xan" []) (mkProfile "y" "Yve" [])
      none none none none
      (fun x hx => absurd hx (by simp [mkProfile]))
      (fun x hx => absurd hx (by simp [mkProfile]))).1,
   (composite_score_correct (mkProfile "x" "Xan" []) (mkProfile "y" "Yve" [])
      none none none none
      (fun x hx => absurd hx (by simp [mkProfile]))
      (fun x hx => absurd hx (by simp [mkProfile]))).2.1⟩


/-- Membership in a stable insertion. -/
theorem mem_insertDescBy {α : Type} (ge : α → α → Bool) (x : α) (l : List α) (a : α) :
    a ∈ insertDescBy ge x l ↔ a = x ∨ a ∈ l := by
  induction l with
  | nil => simp [insertDescBy]
  | cons y ys ih =>
    simp only [insertDescBy]
    split_ifs with hc
    · simp [List.mem_cons]
    · simp only [List.mem_cons, ih]
      tauto

/-- Stable insertion is a permutation of consing. -/
theorem perm_insertDescBy {α : Type} (ge : α → α → Bool) (x : α) (l : List α) :
    List.Perm (insertDescBy ge x l) (x :: l) := by
  induction l with
  | nil => simp [insertDescBy]
  | cons y ys ih =>
    simp only [insertDescBy]
    split_ifs with hc
    · exact List.Perm.refl _
    · exact (List.Perm.cons y ih).trans (List.Perm.swap x y ys)

/-- The stable descending sort permutes its input. -/
theorem perm_sortDescBy {α : Type} (ge : α → α → Bool) (l : List α) :
    List.Perm (sortDescBy ge l) l := by
  induction l with
  | nil => exact List.Perm.refl _
  | cons x xs ih =>
    simp only [sortDescBy]
    exact (perm_insertDescBy ge x (sortDescBy ge xs)).trans (List.Perm.cons x ih)

/-- Inserting into a descending-sorted ranked list keeps it sorted. -/
theorem pairwise_insertRanked (x : RankedResult) (l : List RankedResult)
    (hl : l.Pairwise (fun a b => b.composite_score ≤ a.composite_score)) :
    (insertDescBy geScore x l).Pairwise
      (fun a b => b.composite_score ≤ a.composite_score) := by
  induction l with
  | nil => simp [insertDescBy]
  | cons y ys ih =>
    rw [List.pairwise_cons] at hl
    obtain ⟨hy, hys⟩ := hl
    simp only [insertDescBy]
    split_ifs with hc
    · have hxy : y.composite_score ≤ x.composite_score := by
        simpa [geScore] using hc
      rw [List.pairwise_cons]
      refine ⟨fun b hb => ?_, ?_⟩
      · rcases List.mem_cons.mp hb with rfl | hb2
        · exact hxy
        · exact le_trans (hy b hb2) hxy
      · rw [List.pairwise_cons]
        exact ⟨hy, hys⟩
    · have hyx : x.composite_score ≤ y.composite_score :=
        le_of_not_le (by simpa [geScore] using hc)
      rw [List.pairwise_cons]
      refine ⟨fun b hb => ?_, ih hys⟩
      rcases (mem_insertDescBy geScore x ys b).mp hb with rfl | hb2
      · exact hyx
      · exact hy b hb2

/-- The ranking sort produces a non-increasing composite-score list. -/
theorem pairwise_sortRanked (l : List RankedResult) :
    (sortDescBy geScore l).Pairwise
      (fun a b => b.composite_score ≤ a.composite_score) := by
  induction l with
  | nil => simp [sortDescBy]
  | cons x xs ih =>
    simp only [sortDescBy]
    exact pairwise_insertRanked x _ ih

/-- Stability of insertion: filtering by an exact score commutes with
inserting into a sorted list. -/
theorem filter_insertRanked (s : ℝ) (x : RankedResult) (l : List RankedResult)
    (hl : l.Pairwise (fun a b => b.composite_score ≤ a.composite_score)) :
    (insertDescBy geScore x l).filter (fun r => decide (r.composite_score = s)) =
      (if x.composite_score = s then [x] else []) ++
        l.filter (fun r => decide (r.composite_score = s)) := by
  induction l with
  | nil =>
    by_cases hpx : x.composite_score = s <;>
      simp [insertDescBy, List.filter, hpx]
  | cons y ys ih =>
    rw [List.pairwise_cons] at hl
    obtain ⟨hy, hys⟩ := hl
    simp only [insertDescBy]
    by_cases hc : geScore x y = true
    · rw [if_pos hc]
      by_cases hpx : x.composite_score = s
      · simp [List.filter_cons, hpx]
      · simp [List.filter_cons, hpx]
    · rw [if_neg hc]
      have hyx : x.composite_score < y.composite_score :=
        lt_of_not_le (by simpa [geScore] using hc)
      by_cases hpy : y.composite_score = s
      · have hpx : ¬(x.composite_score = s) := by
          rw [← hpy]
          exact ne_of_lt hyx
        simp [List.filter_cons, hpy, hpx, ih hys]
      · by_cases hpx : x.composite_score = s <;>
          simp [List.filter_cons, hpy, hpx, ih hys]

/-- Stability of the ranking sort: elements of any fixed composite score
keep their original relative order. -/
theorem filter_sortRanked (s : ℝ) (l : List RankedResult) :
    (sortDescBy geScore l).filter (fun r => decide (r.composite_score = s)) =
      l.filter (fun r => decide (r.composite_score = s)) := by
  induction l with
  | nil => rfl
  | cons x xs ih =>
    simp only [sortDescBy]
    rw [filter_insertRanked s x _ (pairwise_sortRanked xs), ih]
    by_cases hpx : x.composite_score = s
    · simp [List.filter_cons, hpx]
    · simp [List.filter_cons, hpx]

/-- C5 (amended): `rank_profiles` returns the first `top_n` entries of
the stable descending sort of the scored candidates: the output is
sorted non-increasingly by composite score, has length at most `top_n`,
and ties are broken by the candidates' original order (the sort is a
stable permutation), not by candidate id; determinism holds because the
function is pure. -/
theorem rank_profiles_sorted_stable (requester_profile : Profile)
    (candidate_profiles : List Profile) (requester_embedding : Option (List ℝ))
    (candidate_embeddings : List (Option (List ℝ)))
    (parsed_query : Option ParsedQuery) (query_embedding : Option (List ℝ))
    (top_n : ℕ) :
    rank_profiles requester_profile candidate_profiles requester_embedding
        candidate_embeddings parsed_query query_embedding top_n =
      (sortDescBy geScore (scoredResults requester_profile candidate_profiles
        requester_embedding candidate_embeddings parsed_query query_embedding)).take
        top_n ∧
    (rank_profiles requester_profile candidate_profiles requester_embedding
        candidate_embeddings parsed_query query_embedding top_n).Pairwise
      (fun a b => b.composite_score ≤ a.composite_score) ∧
    (rank_profiles requester_profile candidate_profiles requester_embedding
        candidate_embeddings parsed_query query_embedding top_n).length ≤ top_n ∧
    List.Perm
      (sortDescBy geScore (scoredResults requester_profile candidate_profiles
        requester_embedding candidate_embeddings parsed_query query_embedding))
      (scoredResults requester_profile candidate_profiles requester_embedding
        candidate_embeddings parsed_query query_embedding) ∧
    (∀ s : ℝ,
      (sortDescBy geScore (scoredResults requester_profile candidate_profiles
          requester_embedding candidate_embeddings parsed_query
          query_embedding)).filter (fun r => decide (r.composite_score = s)) =
      (scoredResults requester_profile candidate_profiles requester_embedding
          candidate_embeddings parsed_query query_embedding).filter
        (fun r => decide (r.composite_score = s))) :=
  ⟨rfl,
   List.Pairwise.sublist (List.take_sublist _ _) (pairwise_sortRanked _),
   List.length_take_le _ _,
   perm_sortDescBy _ _,
   fun s => filter_sortRanked s _⟩

/-- Blank profiles with no embeddings and no query score a composite 0. -/
theorem composite_blank_zero (i1 n1 i2 n2 : String) :
    (calculate_composite_score (mkProfile i1 n1 []) (mkProfile i2 n2 [])
      none none none none).composite_score = 0 := by
  simp only [calculate_composite_score, calculate_semantic_similarity,
    calculate_relationship_strength, calculate_mutual_connections,
    calculate_company_overlap, calculate_education_similarity,
    profileCompanies, mkProfile, alookup,
    show ("" : String).isEmpty = true from rfl]
  norm_num [weights_semantic_similarity, weights_relationship_strength,
    weights_mutual_connections, weights_company_overlap,
    weights_education_similarity, weights_query_relevance]

/-- C5 counterexample: two candidates with equal composite scores
(both 0) listed as `[b, a]` are returned in that original order, not in
ascending id order `[a, b]` — the claimed id tie-break does not exist. -/
theorem rank_profiles_tie_keeps_list_order :
    ((rank_profiles reqC5 [bC5, aC5] none [none, none] none none 10).map
      (fun r => r.profile.id) = ["b", "a"]) ∧
    ((rank_profiles reqC5 [bC5, aC5] none [none, none] none none 10).map
      (fun r => r.composite_score) = [0, 0]) := by
  have hb : (calculate_composite_score reqC5 bC5 none none none none).composite_score
      = 0 := composite_blank_zero "r" "Req" "b" "Bee"
  have ha : (calculate_composite_score reqC5 aC5 none none none none).composite_score
      = 0 := composite_blank_zero "r" "Req" "a" "Aye"
  have hge : geScore
      ⟨bC5, calculate_composite_score reqC5 bC5 none none none none,
        (calculate_composite_score reqC5 bC5 none none none none).composite_score⟩
      ⟨aC5, calculate_composite_score reqC5 aC5 none none none none,
        (calculate_composite_score reqC5 aC5 none none none none).composite_score⟩
      = true := by
    simp only [geScore, ha, hb]
    exact decide_eq_true le_rfl
  have hlist : rank_profiles reqC5 [bC5, aC5] none [none, none] none none 10 =
      [⟨bC5, calculate_composite_score reqC5 bC5 none none none none,
        (calculate_composite_score reqC5 bC5 none none none none).composite_score⟩,
       ⟨aC5, calculate_composite_score reqC5 aC5 none none none none,
        (calculate_composite_score reqC5 aC5 none none none none).composite_score⟩] := by
    show (insertDescBy geScore
      ⟨bC5, calculate_composite_score reqC5 bC5 none none none none,
        (calculate_composite_score reqC5 bC5 none none none none).composite_score⟩
      [⟨aC5, calculate_composite_score reqC5 aC5 none none none none,
        (calculate_composite_score reqC5 aC5 none none none none).composite_score⟩]).take
        10 = _
    simp only [insertDescBy]
    rw [if_pos hge]
    rfl
  rw [hlist]
  constructor
  · rfl
  · simp [hb, ha]
